import Mathlib

/-!
Verification of the GSA election validation pipeline
(`validate_election_results.py` and `compile_validated_results.py`).

The two scripts are shallowly embedded: files become lists of lines,
csv rows become lists of field strings, Python dicts become functions
into `Option`, and the row-processing loops become structural
recursions carrying an explicit state.  Console printing (warnings,
debug output, the final summary) is not modelled; the counters and
line buffers that the prints report are.
-/

/-- Python `s.lower()` restricted to the ASCII case mapping used by the data. -/
def pyLower (s : String) : String := String.mk (s.data.map Char.toLower)

/-- Helper for `pyTitle`: title-case a character stream, tracking whether the
previous character was alphabetic. -/
def pyTitleAux : Bool → List Char → List Char
  | _, [] => []
  | prev, c :: cs =>
    if c.isAlpha then
      (if prev then c.toLower else c.toUpper) :: pyTitleAux true cs
    else
      c :: pyTitleAux false cs

/-- Python `s.title()`: first letter of every alphabetic run uppercased, the
rest lowercased. -/
def pyTitle (s : String) : String := String.mk (pyTitleAux false s.data)

/-- Python `str(b)` for a boolean. -/
def pyBool (b : Bool) : String := if b then "True" else "False"

/-- Python `str(x)` for a boolean-or-None value. -/
def pyOptBool : Option Bool → String
  | none => "None"
  | some b => pyBool b

/-- Python list indexing `row[i]` with negative-index wraparound;
`none` models an `IndexError`. -/
def pyGet (row : List String) (i : Int) : Option String :=
  if 0 ≤ i then row.get? i.toNat
  else if 0 ≤ (row.length : Int) + i then row.get? ((row.length : Int) + i).toNat
  else none

/-- `",".join(fields)`. -/
def csvJoin : List String → String
  | [] => ""
  | [x] => x
  | x :: y :: xs => x ++ "," ++ csvJoin (y :: xs)

/-- Helper for `csvSplit`: split a character stream at commas, accumulating the
current field in reverse. -/
def csvSplitAux : List Char → List Char → List String
  | [], acc => [String.mk acc.reverse]
  | c :: cs, acc =>
    if c = ',' then String.mk acc.reverse :: csvSplitAux cs []
    else csvSplitAux cs (c :: acc)

/-- `csv.reader` applied to one line of plain comma-separated fields
(the only shape this pipeline writes or reads: no quoting is involved). -/
def csvSplit (s : String) : List String := csvSplitAux s.data []

namespace StudentListFormat

/-- `StudentListFormat.EMAIL_HEADER` from the source. -/
def EMAIL_HEADER : Nat := 5

/-- `StudentListFormat.FACULTY_HEADER` from the source. -/
def FACULTY_HEADER : Nat := 0

/-- `StudentListFormat.INTERNATIONAL_HEADER` from the source. -/
def INTERNATIONAL_HEADER : Nat := 6

/-- `StudentListFormat.INTERNATIONAL_LABEL` from the source. -/
def INTERNATIONAL_LABEL : String := "Visa"

end StudentListFormat

namespace ResultsListFormat

/-- `ResultsListFormat.EMAIL_HEADER` from the source. -/
def EMAIL_HEADER : Int := 1

/-- `ResultsListFormat.FACULTY_HEADER` from the source: `-1`, and the code
guards every use with `> 0`, so the results format carries no faculty field. -/
def FACULTY_HEADER : Int := -1

/-- `ResultsListFormat.INTERNATIONAL_HEADER` from the source. -/
def INTERNATIONAL_HEADER : Int := 2

/-- `ResultsListFormat.INTERNATIONAL_LABEL` from the source. -/
def INTERNATIONAL_LABEL : String := "Yes"

end ResultsListFormat

/-- The student dictionary built by `read_student_list`:
`email -> [faculty, international]`. -/
abbrev SMap : Type := String → Option (String × Bool)

/-- Python dict assignment `m[k] = v`. -/
def sset (m : SMap) (k : String) (v : String × Bool) : SMap :=
  fun q => if q = k then some v else m q

/-- The row loop of `read_student_list` (lines 108-118): extract email,
faculty and international from their fixed positions; an `IndexError`
(any position missing) prints a parse error and skips the row, otherwise
the `else:` clause stores the entry.  Header/comment skipping happens
before this loop and is not claim-relevant. -/
def read_student_list_rows (m : SMap) : List (List String) → SMap
  | [] => m
  | row :: rest =>
    match row.get? StudentListFormat.EMAIL_HEADER,
          row.get? StudentListFormat.FACULTY_HEADER,
          row.get? StudentListFormat.INTERNATIONAL_HEADER with
    | some e, some f, some i =>
        read_student_list_rows
          (sset m (pyLower e) (pyTitle f, i == StudentListFormat.INTERNATIONAL_LABEL)) rest
    | _, _, _ => read_student_list_rows m rest

/-- `read_student_list` on the data rows of the student file. -/
def read_student_list (rows : List (List String)) : SMap :=
  read_student_list_rows (fun _ => none) rows

/-- Outcome of the per-row field extraction in `validate_results_list`
(lines 179-199): success, an `IndexError` (malformed row, `continue`), or
any other exception (`break`).  The last constructor never arises from the
pure extraction `extractRow`; the loop is parameterised over the extraction
step so that the `except Exception: break` arm of the source is exercisable. -/
inductive ExtractOutcome where
  | ok (email : String) (faculty : Option String) (international : Option Bool)
  | indexError
  | unexpectedError
deriving DecidableEq

/-- The extraction block of `validate_results_list` (lines 180-190): email
from column `EMAIL_HEADER` lowercased; faculty only when
`FACULTY_HEADER > 0` (it is `-1`, so faculty is `None`); international as
equality with the label when `INTERNATIONAL_HEADER > 0`. -/
def extractRow (row : List String) : ExtractOutcome :=
  match pyGet row ResultsListFormat.EMAIL_HEADER with
  | none => ExtractOutcome.indexError
  | some e =>
    match (if 0 < ResultsListFormat.FACULTY_HEADER then
             match pyGet row ResultsListFormat.FACULTY_HEADER with
             | none => none
             | some f => some (some (pyTitle f))
           else some (none : Option String)) with
    | none => ExtractOutcome.indexError
    | some faculty =>
      match (if 0 < ResultsListFormat.INTERNATIONAL_HEADER then
               match pyGet row ResultsListFormat.INTERNATIONAL_HEADER with
               | none => none
               | some v => some (some (v == ResultsListFormat.INTERNATIONAL_LABEL))
             else some (none : Option Bool)) with
      | none => ExtractOutcome.indexError
      | some international => ExtractOutcome.ok (pyLower e) faculty international

/-- Where a non-skipped row is routed: the validated stream or the voided
stream, with the exact line written. -/
inductive RowRoute where
  | validatedLine (line : String)
  | voidedLine (line : String)
deriving DecidableEq

/-- Reason string used by `void_student` for an identity missing from the
roster. -/
def notInListReason : String := "Not in Student List"

/-- Reason string for a faculty mismatch (source line 208, including its
trailing space and its Expected/Got argument order). -/
def facultyReason (f roster : String) : String :=
  "Incorrect Faculty: Expected [" ++ f ++ "] Got [" ++ roster ++ "] "

/-- Reason string for an international-status mismatch (source line 212). -/
def intlReason (i : Option Bool) (roster : Bool) : String :=
  "Incorrect International Status: Expected [" ++ pyOptBool i ++ "] Got [" ++ pyBool roster ++ "]"

/-- The comparison chain of `validate_results_list` (lines 203-216).
`none` is the fall-through of the source's `elif faculty is not None:`
branch when the faculty matches: no routing happens at all. -/
def decideRow (students : SMap) (row : List String) (email : String)
    (faculty : Option String) (international : Option Bool) : Option RowRoute :=
  match students email with
  | none => some (RowRoute.voidedLine (csvJoin (row ++ [notInListReason])))
  | some entry =>
    match faculty with
    | some f =>
      if pyLower entry.1 ≠ pyLower f then
        some (RowRoute.voidedLine (csvJoin (row ++ [facultyReason f entry.1])))
      else none
    | none =>
      if international ≠ some entry.2 then
        some (RowRoute.voidedLine (csvJoin (row ++ [intlReason international entry.2])))
      else some (RowRoute.validatedLine (csvJoin row))

/-- The `summary` dict of `validate_results_list` together with the lines
appended to the two output streams and whether the loop hit the
`break` arm. -/
structure RunState where
  entries : Nat
  validatedCount : Nat
  voidedCount : Nat
  validatedLines : List String
  voidedLines : List String
  aborted : Bool
deriving DecidableEq

/-- The state at the top of the row loop: zero counters, empty streams. -/
def initState : RunState :=
  { entries := 0, validatedCount := 0, voidedCount := 0,
    validatedLines := [], voidedLines := [], aborted := false }

/-- The row loop of `validate_results_list` (lines 174-216): count the row,
extract (`IndexError` continues, any other exception breaks), then route
through the comparison chain. -/
def runLoop (extract : List String → ExtractOutcome) (students : SMap) :
    List (List String) → RunState → RunState
  | [], s => s
  | row :: rest, s =>
    let s1 : RunState := { s with entries := s.entries + 1 }
    match extract row with
    | ExtractOutcome.indexError => runLoop extract students rest s1
    | ExtractOutcome.unexpectedError => { s1 with aborted := true }
    | ExtractOutcome.ok email faculty international =>
      match decideRow students row email faculty international with
      | some (RowRoute.voidedLine l) =>
          runLoop extract students rest
            { s1 with voidedCount := s1.voidedCount + 1,
                      voidedLines := s1.voidedLines ++ [l] }
      | some (RowRoute.validatedLine l) =>
          runLoop extract students rest
            { s1 with validatedCount := s1.validatedCount + 1,
                      validatedLines := s1.validatedLines ++ [l] }
      | none => runLoop extract students rest s1

/-- A full validation run from the top of the row loop: after the loop the
source closes both files, prints the summary and returns; the script then
ends, so the process exit code is 0 on every path through the loop
(`sys.exit` is only reachable earlier, in argument checking). -/
def validateRun (extract : List String → ExtractOutcome) (students : SMap)
    (rows : List (List String)) : RunState × Nat :=
  (runLoop extract students rows initState, 0)

/-- `validate_results_list` restricted to its row-processing core, with the
extraction the source actually performs. -/
def validate_results_list (students : SMap) (rows : List (List String)) : RunState × Nat :=
  validateRun extractRow students rows

/-- Number of data rows the validation loop skips as malformed
(the `except IndexError: continue` arm). -/
def skippedCount (rows : List (List String)) : Nat :=
  (rows.filter (fun r => decide (extractRow r = ExtractOutcome.indexError))).length

/-- `results_datetime_str` with the timestamp left abstract. -/
def results_datetime_str (ts : String) : String := "Results From " ++ ts

/-- `write_results_header`: the lines this call writes to a freshly truncated
results file — two comment lines, then the header line when one is given. -/
def write_results_header (comment_str : String) (ts : String)
    (header_str : Option String) : List String :=
  ["# " ++ comment_str, "# " ++ results_datetime_str ts] ++
    (match header_str with
     | some h => [h]
     | none => [])

/-- The full content of `validated_results.csv` after a run: the preamble
written by `write_results_header(validated_file, 'VALIDATED STUDENTS',
header_str=",".join(results_header))` followed by the accepted rows appended
by `validate_student`. -/
def validatedFileLines (ts : String) (results_header : List String)
    (acceptedLines : List String) : List String :=
  write_results_header "VALIDATED STUDENTS" ts (some (csvJoin results_header)) ++ acceptedLines

/-- `compile_validated_results.py` constant: number of leading lines skipped
before csv parsing starts. -/
def VALIDATED_STUDENTS_NUM_HEADERS : Nat := 3

/-- The configuration dictionary of the compilation stage, with the keys of
`DEFAULT_CONFIG`. -/
structure Config where
  faculty_column : Int
  user_column : Int
  frc_votes : Int
  exec_votes : Int
  international_offset : Int
  frc_offset : Int
  frc_elections : List String
  exec_offset : Int
  exec_elections : List String
deriving DecidableEq

/-- `DEFAULT_CONFIG` from the source. -/
def DEFAULT_CONFIG : Config :=
  { faculty_column := 3
    user_column := 2
    frc_votes := 2
    exec_votes := 1
    international_offset := 13
    frc_offset := 4
    frc_elections := ["Social Sciences", "Humanities", "Health Sciences", "Business"]
    exec_offset := 15
    exec_elections := ["VP Administration", "VP Internal", "VP External", "VP Services", "President"] }

/-- A user-supplied configuration document: any subset of the recognized
keys may be present. -/
structure UserConfig where
  faculty_column : Option Int := none
  user_column : Option Int := none
  frc_votes : Option Int := none
  exec_votes : Option Int := none
  international_offset : Option Int := none
  frc_offset : Option Int := none
  frc_elections : Option (List String) := none
  exec_offset : Option Int := none
  exec_elections : Option (List String) := none
deriving DecidableEq

/-- `read_config` (lines 49-65): with no config file, return
`DEFAULT_CONFIG`; otherwise take the user's document and fill in every
absent key from `DEFAULT_CONFIG` (`if key not in config: config[key] = val`),
so present keys keep the user's value. -/
def read_config : Option UserConfig → Config
  | none => DEFAULT_CONFIG
  | some u =>
    { faculty_column := u.faculty_column.getD DEFAULT_CONFIG.faculty_column
      user_column := u.user_column.getD DEFAULT_CONFIG.user_column
      frc_votes := u.frc_votes.getD DEFAULT_CONFIG.frc_votes
      exec_votes := u.exec_votes.getD DEFAULT_CONFIG.exec_votes
      international_offset := u.international_offset.getD DEFAULT_CONFIG.international_offset
      frc_offset := u.frc_offset.getD DEFAULT_CONFIG.frc_offset
      frc_elections := u.frc_elections.getD DEFAULT_CONFIG.frc_elections
      exec_offset := u.exec_offset.getD DEFAULT_CONFIG.exec_offset
      exec_elections := u.exec_elections.getD DEFAULT_CONFIG.exec_elections }

/-- The `__main__` block of the compilation script (lines 186-206): the local
name `config` is bound only inside `if opts.config is not None:`, so when no
`--config` option is given nothing ever assigns `config` and the final call
`compile_validated_results(opts.file, config, opts.directory)` raises
`NameError`; `none` models that crash, `read_config` is never consulted. -/
def mainConfig : Option UserConfig → Option Config
  | some u => some (read_config (some u))
  | none => none

/-- `convert_election_name`: lowercase and replace spaces by underscores. -/
def convert_election_name (election : String) : String :=
  String.mk ((pyLower election).data.map (fun c => if c = ' ' then '_' else c))

/-- One open(ed) per-contest output stream: whether it is currently open and
the `(user, vote)` records written to it (each record is the line
`user ++ "," ++ vote` in the real file). -/
structure Handle where
  isOpen : Bool
  lines : List (String × String)
deriving DecidableEq

/-- The `the_files` dictionary of `create_election_files`. -/
abbrev Files : Type := String → Option Handle

/-- Python dict assignment `the_files[election] = handle`. -/
def fset (m : Files) (k : String) (h : Handle) : Files :=
  fun q => if q = k then some h else m q

/-- Inner loop of `create_election_files`: open one fresh file per election
name in the group. -/
def createFilesLoop (m : Files) : List String → Files
  | [] => m
  | e :: rest => createFilesLoop (fset m e { isOpen := true, lines := [] }) rest

/-- Outer loop of `create_election_files` over the election groups. -/
def createFilesOuter (m : Files) : List (List String) → Files
  | [] => m
  | grp :: rest => createFilesOuter (createFilesLoop m grp) rest

/-- `create_election_files`: one fresh open handle per election of every
group. -/
def create_election_files (elections : List (List String)) : Files :=
  createFilesOuter (fun _ => none) elections

/-- `close_election_files`: close every handle in the dictionary. -/
def close_election_files (files : Files) : Files :=
  fun k => (files k).map (fun h => { h with isOpen := false })

/-- The election-columns dictionary of `build_election_columns`. -/
abbrev ColMap : Type := String → Option Int

/-- Python dict assignment `election_columns[k] = v`. -/
def cset (m : ColMap) (k : String) (v : Int) : ColMap :=
  fun q => if q = k then some v else m q

/-- The FRC loop of `build_election_columns` (lines 102-105): each faculty
gets the running column, which then advances by `frc_votes`. -/
def frcColsLoop (votes : Int) : List String → Int → ColMap → ColMap
  | [], _, m => m
  | fac :: rest, col, m => frcColsLoop votes rest (col + votes) (cset m fac col)

/-- The exec loop of `build_election_columns` (lines 111-115): each role gets
the running column, which then advances by one. -/
def execColsLoop : List String → Int → ColMap → ColMap
  | [], _, m => m
  | role :: rest, col, m => execColsLoop rest (col + 1) (cset m role col)

/-- `build_election_columns`: User and Faculty columns, then the FRC
contests, the International column, and the exec contests, all converted
from 1-based configuration to 0-based indices. -/
def build_election_columns (c : Config) : ColMap :=
  let m : ColMap := fun _ => none
  let m := cset m "User" (c.user_column - 1)
  let m := cset m "Faculty" (c.faculty_column - 1)
  let m := frcColsLoop c.frc_votes c.frc_elections (c.frc_offset - 1) m
  let m := cset m "International" (c.international_offset - 1)
  execColsLoop c.exec_elections (c.exec_offset - 1) m

/-- `range(n)` over a Python integer. -/
def pyRange (n : Int) : List Int := (List.range n.toNat).map Int.ofNat

/-- `election_files[election].write(",".join([user, vote]) + os.linesep)`:
a `KeyError` if the election has no handle, a `ValueError` if its handle is
closed, otherwise append the record. -/
def writeVote (files : Files) (election user vote : String) : Except String Files :=
  match files election with
  | none => Except.error ("KeyError: " ++ election)
  | some h =>
    if h.isOpen then
      Except.ok (fun k => if k = election then some { h with lines := h.lines ++ [(user, vote)] } else files k)
    else Except.error "ValueError: write to closed file"

/-- One vote-slot iteration shared by the FRC pass (lines 146-154) and the
International pass (lines 158-164): read `row[col + i]`, warn and skip an
empty vote, write a non-empty one.  The second component is the uncaught
exception, if any. -/
def votePass (election user : String) (col : Int) (row : List String)
    (files : Files) : List Int → Files × Option String
  | [] => (files, none)
  | i :: rest =>
    match pyGet row (col + i) with
    | none => (files, some "IndexError")
    | some vote =>
      if vote = "" then votePass election user col row files rest
      else
        match writeVote files election user vote with
        | Except.ok files2 => votePass election user col row files2 rest
        | Except.error e => (files, some e)

/-- Inner exec loop (lines 168-175): for a fixed round `i`, one vote per
exec role, with the same empty-vote policy. -/
def execInner (cols : ColMap) (user : String) (row : List String) (i : Int)
    (files : Files) : List String → Files × Option String
  | [] => (files, none)
  | role :: rest =>
    match cols role with
    | none => (files, some ("KeyError: " ++ role))
    | some col =>
      match pyGet row (col + i) with
      | none => (files, some "IndexError")
      | some vote =>
        if vote = "" then execInner cols user row i files rest
        else
          match writeVote files role user vote with
          | Except.ok files2 => execInner cols user row i files2 rest
          | Except.error e => (files, some e)

/-- Outer exec loop (line 167): one inner pass per round in
`range(exec_votes)`. -/
def execOuter (cols : ColMap) (user : String) (row : List String)
    (roles : List String) (files : Files) : List Int → Files × Option String
  | [] => (files, none)
  | i :: rest =>
    match execInner cols user row i files roles with
    | (files2, none) => execOuter cols user row roles files2 rest
    | (files2, some e) => (files2, some e)

/-- The FRC block of the row loop (lines 144-154): when the row's faculty
has a regional contest, iterate its vote slots. -/
def frcPass (c : Config) (cols : ColMap) (files : Files) (faculty user : String)
    (row : List String) : Files × Option String :=
  if faculty ∈ c.frc_elections then
    match cols faculty with
    | none => (files, some ("KeyError: " ++ faculty))
    | some col => votePass faculty user col row files (pyRange c.frc_votes)
  else (files, none)

/-- The International block of the row loop (lines 157-164): when the flag
column (one left of the International vote columns) reads `"Yes"`, iterate
the same number of vote slots against the International columns. -/
def intlPass (c : Config) (cols : ColMap) (files : Files) (user : String)
    (row : List String) : Files × Option String :=
  match cols "International" with
  | none => (files, some "KeyError: International")
  | some iIdx =>
    match pyGet row (iIdx - 1) with
    | none => (files, some "IndexError")
    | some flag =>
      if flag = "Yes" then votePass "International" user iIdx row files (pyRange c.frc_votes)
      else (files, none)

/-- Processing of one validated row (lines 138-175): read user and faculty,
run the FRC pass, then the International pass, then the exec pass; the first
uncaught exception stops the row. -/
def compileRow (c : Config) (cols : ColMap) (files : Files)
    (row : List String) : Files × Option String :=
  match cols "User" with
  | none => (files, some "KeyError: User")
  | some uIdx =>
    match pyGet row uIdx with
    | none => (files, some "IndexError")
    | some user =>
      match cols "Faculty" with
      | none => (files, some "KeyError: Faculty")
      | some fIdx =>
        match pyGet row fIdx with
        | none => (files, some "IndexError")
        | some faculty =>
          match frcPass c cols files faculty user row with
          | (files1, some e) => (files1, some e)
          | (files1, none) =>
            match intlPass c cols files1 user row with
            | (files2, some e) => (files2, some e)
            | (files2, none) =>
              execOuter cols user row c.exec_elections files2 (pyRange c.exec_votes)

/-- The row loop of `compile_validated_results`: an uncaught exception in a
row stops the loop and propagates (there is no handler around it). -/
def compileRowsLoop (c : Config) (cols : ColMap) (files : Files) :
    List (List String) → Files × Option String
  | [] => (files, none)
  | row :: rest =>
    match compileRow c cols files row with
    | (files2, none) => compileRowsLoop c cols files2 rest
    | (files2, some e) => (files2, some e)

/-- The rows the compiler parses: everything after the skipped header lines,
csv-split. -/
def compileDataRows (lines : List String) : List (List String) :=
  (lines.drop VALIDATED_STUDENTS_NUM_HEADERS).map csvSplit

/-- `compile_validated_results` (lines 119-177): open every per-contest
file, build the column map, skip the header lines (a file shorter than the
skip count raises `StopIteration` out of the list comprehension), process
the rows, and call `close_election_files` only after a completed loop — an
exception propagates past the close call, leaving the handles open. -/
def compile_validated_results (c : Config) (lines : List String) : Files × Option String :=
  let files := create_election_files [c.frc_elections, c.exec_elections, ["International"]]
  let cols := build_election_columns c
  if lines.length < VALIDATED_STUDENTS_NUM_HEADERS then
    (files, some "StopIteration")
  else
    match compileRowsLoop c cols files (compileDataRows lines) with
    | (files2, none) => (close_election_files files2, none)
    | (files2, some e) => (files2, some e)

/-- The openness of every handle in the dictionary, as a map. -/
def openAt (files : Files) (k : String) : Option Bool := (files k).map Handle.isOpen

/-- No handle in the dictionary holds a record with an empty vote value. -/
def goodFiles (files : Files) : Prop :=
  ∀ (name : String) (hd : Handle) (pr : String × String),
    files name = some hd → pr ∈ hd.lines → pr.2 ≠ ""

/-- A hypothetical extraction step that raises an unexpected (non-IndexError)
exception on single-field rows: it stands for the row-level corruption of
unknown shape that the source's `except Exception:` arm (line 195) is there
to meet, which the pure extraction `extractRow` itself can never produce. -/
def crashingExtract (row : List String) : ExtractOutcome :=
  if row.length = 1 then ExtractOutcome.unexpectedError else extractRow row

/-- A one-entry roster: `a@b.c` in faculty `Science`, international. -/
def sampleStudents : SMap := sset (fun _ => none) "a@b.c" ("Science", true)

/-- A well-formed ballot row for `a@b.c` declaring international status. -/
def sampleRow : List String := ["x", "A@B.c", "Yes"]

/-- A well-formed ballot row whose identity is not on the roster. -/
def offRosterRow : List String := ["x", "z@b.c", "Yes"]

/-- A single-field row, used to trigger `crashingExtract`. -/
def crashRow : List String := ["boom"]

/-- A roster record long enough for every required field position. -/
def sampleRosterRow : List String := ["Science", "b", "c", "d", "e", "A@B.c", "Visa"]

/-- A roster record with too few fields for the international position. -/
def shortRosterRow : List String := ["too", "short"]

/-- A validated file: three preamble lines and one accepted ballot with
19 columns matching `DEFAULT_CONFIG` (faculty Humanities, not
international). -/
def goodLines : List String :=
  ["# VALIDATED STUDENTS", "# Results From 2026-01-01 00:00:00", "Timestamp,Username",
   "x,alice,Humanities,a,b,H1,H2,c,d,e,f,No,i1,i2,E1,E2,E3,E4,E5"]

/-- A validated file whose single data row has too few columns: reading the
user column raises an `IndexError` mid-run. -/
def badLines : List String :=
  ["# VALIDATED STUDENTS", "# Results From 2026-01-01 00:00:00", "Timestamp,Username",
   "onlyonefield"]

/-- The records a completed vote-slot pass writes: one `(user, vote)` pair
per slot index whose value is present and non-empty, in slot order. -/
def slotRecords (user : String) (col : Int) (row : List String)
    (idxs : List Int) : List (String × String) :=
  idxs.filterMap (fun i =>
    match pyGet row (col + i) with
    | some v => if v = "" then none else some (user, v)
    | none => none)

/-! ## Helper lemmas -/

/-- Normal form of the per-row extraction under the fixed
`ResultsListFormat` constants: faculty is always absent (`FACULTY_HEADER`
is `-1`), and the row is malformed exactly when column 1 or column 2 is
missing. -/
theorem extractRow_eq (row : List String) :
    extractRow row =
      (match pyGet row ResultsListFormat.EMAIL_HEADER,
             pyGet row ResultsListFormat.INTERNATIONAL_HEADER with
       | some e, some v =>
           ExtractOutcome.ok (pyLower e) none (some (v == ResultsListFormat.INTERNATIONAL_LABEL))
       | some _, none => ExtractOutcome.indexError
       | none, _ => ExtractOutcome.indexError) := by
  unfold extractRow
  cases pyGet row ResultsListFormat.EMAIL_HEADER <;>
    cases pyGet row ResultsListFormat.INTERNATIONAL_HEADER <;> rfl

/-- The pure extraction never produces the unexpected-exception outcome. -/
theorem extractRow_ne_unexpected (row : List String) :
    extractRow row ≠ ExtractOutcome.unexpectedError := by
  rw [extractRow_eq]
  cases pyGet row ResultsListFormat.EMAIL_HEADER <;>
    cases pyGet row ResultsListFormat.INTERNATIONAL_HEADER <;> simp

/-- A successfully extracted row carries no faculty field. -/
theorem extract_faculty_none (row : List String) (e : String) (f : Option String)
    (i : Option Bool) (hx : extractRow row = ExtractOutcome.ok e f i) : f = none := by
  rw [extractRow_eq] at hx
  revert hx
  cases pyGet row ResultsListFormat.EMAIL_HEADER <;>
    cases pyGet row ResultsListFormat.INTERNATIONAL_HEADER <;>
      intro hx <;> simp_all

/-! ## C9: short roster records are skipped without aborting -/

/-- C9: a roster record with too few fields to contain the identity,
affiliation or special-status positions (fewer than 7 fields, since the
international value sits at index 6) is skipped by the Roster Loader: it
adds no entry to the mapping and loading simply continues with the
remaining records — the load is a total function and never aborts.  (The
parse error the source prints is console output, not modelled.) -/
theorem c9_short_roster_row (m : SMap) (row : List String)
    (rest : List (List String)) (h : row.length < 7) :
    read_student_list_rows m (row :: rest) = read_student_list_rows m rest := by
  have h6 : row.get? StudentListFormat.INTERNATIONAL_HEADER = none := by
    rw [List.get?_eq_none]
    simp only [StudentListFormat.INTERNATIONAL_HEADER]
    omega
  simp only [read_student_list_rows]
  rw [h6]
  cases row.get? StudentListFormat.EMAIL_HEADER <;>
    cases row.get? StudentListFormat.FACULTY_HEADER <;> rfl

/-- Witness for C9 at a concrete short record: loading `["too", "short"]`
before a well-formed record gives exactly the mapping of the well-formed
record alone. -/
theorem c9_short_roster_row_witness :
    read_student_list_rows (fun _ => none) [shortRosterRow, sampleRosterRow] =
      read_student_list_rows (fun _ => none) [sampleRosterRow] :=
  c9_short_roster_row (fun _ => none) shortRosterRow [sampleRosterRow] (by decide)

/-! ## C10: header-skip count matches the validated preamble -/

/-- C10: the compilation stage unconditionally skips
`VALIDATED_STUDENTS_NUM_HEADERS = 3` leading lines, and the validation
stage writes exactly 3 preamble lines to the validated file (two comment
lines and the copied header line), so the rows the compiler parses from a
validated file are exactly the accepted ballots — in particular the first
parsed row is the first accepted ballot. -/
theorem c10_header_alignment (ts : String) (results_header : List String)
    (acceptedLines : List String) :
    (write_results_header "VALIDATED STUDENTS" ts (some (csvJoin results_header))).length =
        VALIDATED_STUDENTS_NUM_HEADERS ∧
      compileDataRows (validatedFileLines ts results_header acceptedLines) =
        acceptedLines.map csvSplit :=
  ⟨rfl, rfl⟩

/-! ## C5: optional configuration -/

/-- C5 (code bug): `read_config` itself implements the claim — with no
document it returns `DEFAULT_CONFIG`, and with a document every supplied
key overrides the default while missing keys keep theirs — but the
`__main__` block only binds `config` inside `if opts.config is not None:`,
so a run without `--config` never defines `config` and crashes with
`NameError` (modelled as `mainConfig none = none`) instead of proceeding
with the defaults. -/
theorem c5_optional_config :
    mainConfig none = none ∧
      read_config none = DEFAULT_CONFIG ∧
      read_config (some { frc_votes := some 5 }) = { DEFAULT_CONFIG with frc_votes := 5 } ∧
      read_config (some { frc_votes := some 5 }) ≠ DEFAULT_CONFIG :=
  ⟨rfl, rfl, rfl, by decide⟩

/-- With no faculty field extracted, the comparison chain always routes the
row somewhere: the silent fall-through of the `elif faculty is not None:`
branch is unreachable in this format. -/
theorem decideRow_isSome (students : SMap) (row : List String) (email : String)
    (international : Option Bool) :
    decideRow students row email none international ≠ none := by
  unfold decideRow
  cases students email with
  | none => simp
  | some entry =>
    by_cases hi : international = some entry.2 <;> simp [hi]

/-- One step of the validation loop on the source's own extraction: the row
is counted, and it is either skipped (malformed) or routed to exactly one of
the two streams, with the matching counter bumped. -/
theorem runLoop_cons_step (students : SMap) (row : List String)
    (rest : List (List String)) (s : RunState) :
    ∃ s' : RunState,
      runLoop extractRow students (row :: rest) s = runLoop extractRow students rest s' ∧
      s'.entries = s.entries + 1 ∧ s'.aborted = s.aborted ∧
      ((extractRow row = ExtractOutcome.indexError ∧
          s'.validatedCount = s.validatedCount ∧ s'.voidedCount = s.voidedCount ∧
          s'.validatedLines = s.validatedLines ∧ s'.voidedLines = s.voidedLines) ∨
       (extractRow row ≠ ExtractOutcome.indexError ∧
          ((∃ l, s'.voidedCount = s.voidedCount + 1 ∧ s'.voidedLines = s.voidedLines ++ [l] ∧
                 s'.validatedCount = s.validatedCount ∧ s'.validatedLines = s.validatedLines) ∨
           (∃ l, s'.validatedCount = s.validatedCount + 1 ∧
                 s'.validatedLines = s.validatedLines ++ [l] ∧
                 s'.voidedCount = s.voidedCount ∧ s'.voidedLines = s.voidedLines)))) := by
  cases hx : extractRow row with
  | unexpectedError => exact absurd hx (extractRow_ne_unexpected row)
  | indexError =>
    refine ⟨{ s with entries := s.entries + 1 }, ?_, rfl, rfl,
      Or.inl ⟨rfl, rfl, rfl, rfl, rfl⟩⟩
    simp only [runLoop, hx]
  | ok e f i =>
    have hf := extract_faculty_none row e f i hx
    subst hf
    rcases hd : decideRow students row e none i with _ | route
    · exact absurd hd (decideRow_isSome students row e i)
    · cases route with
      | voidedLine l =>
        refine ⟨{ s with
            entries := s.entries + 1
            voidedCount := s.voidedCount + 1
            voidedLines := s.voidedLines ++ [l] }, ?_, rfl, rfl,
          Or.inr ⟨by simp, Or.inl ⟨l, rfl, rfl, rfl, rfl⟩⟩⟩
        simp only [runLoop, hx, hd]
      | validatedLine l =>
        refine ⟨{ s with
            entries := s.entries + 1
            validatedCount := s.validatedCount + 1
            validatedLines := s.validatedLines ++ [l] }, ?_, rfl, rfl,
          Or.inr ⟨by simp, Or.inr ⟨l, rfl, rfl, rfl, rfl⟩⟩⟩
        simp only [runLoop, hx, hd]

/-- Bookkeeping of a full validation loop run: entries count every row,
validated plus voided plus skipped accounts for every row, the loop never
hits the break arm, and each output stream holds one line per increment of
its counter. -/
theorem runLoop_stats (students : SMap) :
    ∀ (rows : List (List String)) (s : RunState),
      (runLoop extractRow students rows s).entries = s.entries + rows.length ∧
      (runLoop extractRow students rows s).validatedCount +
          (runLoop extractRow students rows s).voidedCount + skippedCount rows
        = s.validatedCount + s.voidedCount + rows.length ∧
      (runLoop extractRow students rows s).aborted = s.aborted ∧
      (runLoop extractRow students rows s).validatedLines.length + s.validatedCount
        = (runLoop extractRow students rows s).validatedCount + s.validatedLines.length ∧
      (runLoop extractRow students rows s).voidedLines.length + s.voidedCount
        = (runLoop extractRow students rows s).voidedCount + s.voidedLines.length := by
  intro rows
  induction rows with
  | nil =>
    intro s
    refine ⟨by simp [runLoop], by simp [runLoop, skippedCount], by simp [runLoop], ?_, ?_⟩
    · simp only [runLoop]
      omega
    · simp only [runLoop]
      omega
  | cons row rest ih =>
    intro s
    obtain ⟨s', heq, he, ha, hcase⟩ := runLoop_cons_step students row rest s
    obtain ⟨i1, i2, i3, i4, i5⟩ := ih s'
    rw [heq]
    have hl : (row :: rest).length = rest.length + 1 := rfl
    rcases hcase with ⟨hx, e1, e2, e3, e4⟩ | ⟨hx, hroute⟩
    · have hs : skippedCount (row :: rest) = skippedCount rest + 1 := by
        simp [skippedCount, List.filter_cons, hx]
      have l3 : s'.validatedLines.length = s.validatedLines.length := by rw [e3]
      have l4 : s'.voidedLines.length = s.voidedLines.length := by rw [e4]
      exact ⟨by omega, by omega, i3.trans ha, by omega, by omega⟩
    · have hs : skippedCount (row :: rest) = skippedCount rest := by
        simp [skippedCount, List.filter_cons, hx]
      rcases hroute with ⟨l, f1, f2, f3, f4⟩ | ⟨l, f1, f2, f3, f4⟩
      · have l2 : s'.voidedLines.length = s.voidedLines.length + 1 := by
          rw [f2]; simp
        have l3 : s'.validatedLines.length = s.validatedLines.length := by rw [f4]
        exact ⟨by omega, by omega, i3.trans ha, by omega, by omega⟩
      · have l2 : s'.validatedLines.length = s.validatedLines.length + 1 := by
          rw [f2]; simp
        have l3 : s'.voidedLines.length = s.voidedLines.length := by rw [f4]
        exact ⟨by omega, by omega, i3.trans ha, by omega, by omega⟩

/-! ## C1: every row routed to exactly one destination -/

/-- C1: in every validation run, each row read after the header is counted
once and lands in exactly one of the validated stream, the voided stream,
or the skipped (malformed) set: the loop never aborts under the source's
own extraction, each stream holds exactly as many lines as its counter,
validated + voided + skipped = entries = number of rows, and whenever no
row is skipped, validated + voided = entries. -/
theorem c1_row_partition (students : SMap) (rows : List (List String)) :
    (validate_results_list students rows).1.entries = rows.length ∧
    (validate_results_list students rows).1.validatedCount +
        (validate_results_list students rows).1.voidedCount + skippedCount rows = rows.length ∧
    (validate_results_list students rows).1.validatedLines.length =
        (validate_results_list students rows).1.validatedCount ∧
    (validate_results_list students rows).1.voidedLines.length =
        (validate_results_list students rows).1.voidedCount ∧
    (validate_results_list students rows).1.aborted = false ∧
    (skippedCount rows = 0 →
      (validate_results_list students rows).1.validatedCount +
          (validate_results_list students rows).1.voidedCount =
        (validate_results_list students rows).1.entries) := by
  have hfst : (validate_results_list students rows).1 = runLoop extractRow students rows initState := rfl
  rw [hfst]
  obtain ⟨i1, i2, i3, i4, i5⟩ := runLoop_stats students rows initState
  have g1 : initState.entries = 0 := rfl
  have g2 : initState.validatedCount = 0 := rfl
  have g3 : initState.voidedCount = 0 := rfl
  have g4 : initState.validatedLines.length = 0 := rfl
  have g5 : initState.voidedLines.length = 0 := rfl
  have g6 : initState.aborted = false := rfl
  exact ⟨by omega, by omega, by omega, by omega, i3.trans g6, fun hz => by omega⟩

/-- Witness for C1 at a concrete run: two well-formed rows, one accepted and
one voided, none skipped, and the counters add up. -/
theorem c1_row_partition_witness :
    skippedCount [sampleRow, offRosterRow] = 0 ∧
      (validate_results_list sampleStudents [sampleRow, offRosterRow]).1.validatedCount +
          (validate_results_list sampleStudents [sampleRow, offRosterRow]).1.voidedCount =
        (validate_results_list sampleStudents [sampleRow, offRosterRow]).1.entries :=
  ⟨by decide,
    (c1_row_partition sampleStudents [sampleRow, offRosterRow]).2.2.2.2.2 (by decide)⟩

/-! ## C2: decision order for on-roster rows -/

/-- C2: for a well-formed row whose identity is on the roster, the verdict
follows the claimed first-match-wins order.  The results-row format carries
no affiliation field (`FACULTY_HEADER = -1`, so the extracted faculty is
always `None`), hence the affiliation-mismatch clause is vacuous for every
row of this program, and the verdict is: StatusMismatch when the declared
special-status differs from the roster's value, otherwise Accepted with the
row written verbatim to the validated stream. -/
theorem c2_decision_order (students : SMap) (row : List String) (e : String)
    (f : Option String) (i : Option Bool) (fac : String) (intl : Bool)
    (s : RunState) (rest : List (List String))
    (hx : extractRow row = ExtractOutcome.ok e f i)
    (hs : students e = some (fac, intl)) :
    f = none ∧
    decideRow students row e f i =
      some (if i ≠ some intl then
              RowRoute.voidedLine (csvJoin (row ++ [intlReason i intl]))
            else RowRoute.validatedLine (csvJoin row)) ∧
    runLoop extractRow students (row :: rest) s =
      runLoop extractRow students rest
        (if i ≠ some intl then
          { s with
            entries := s.entries + 1
            voidedCount := s.voidedCount + 1
            voidedLines := s.voidedLines ++ [csvJoin (row ++ [intlReason i intl])] }
         else
          { s with
            entries := s.entries + 1
            validatedCount := s.validatedCount + 1
            validatedLines := s.validatedLines ++ [csvJoin row] }) := by
  have hf := extract_faculty_none row e f i hx
  subst hf
  refine ⟨rfl, ?_, ?_⟩
  · simp [decideRow, hs]
    split <;> rfl
  · by_cases hi : i = some intl
    · simp [runLoop, hx, decideRow, hs, hi]
    · simp [runLoop, hx, decideRow, hs, hi]

/-- Witness for C2 at a concrete accepted row: `a@b.c` is on the roster with
matching international status, so the row goes to the validated stream. -/
theorem c2_decision_order_witness :
    (none : Option String) = none ∧
    decideRow sampleStudents sampleRow "a@b.c" none (some true) =
      some (if (some true : Option Bool) ≠ some true then
              RowRoute.voidedLine (csvJoin (sampleRow ++ [intlReason (some true) true]))
            else RowRoute.validatedLine (csvJoin sampleRow)) ∧
    runLoop extractRow sampleStudents (sampleRow :: []) initState =
      runLoop extractRow sampleStudents []
        (if (some true : Option Bool) ≠ some true then
          { initState with
            entries := initState.entries + 1
            voidedCount := initState.voidedCount + 1
            voidedLines := initState.voidedLines ++ [csvJoin (sampleRow ++ [intlReason (some true) true])] }
         else
          { initState with
            entries := initState.entries + 1
            validatedCount := initState.validatedCount + 1
            validatedLines := initState.validatedLines ++ [csvJoin sampleRow] }) :=
  c2_decision_order sampleStudents sampleRow "a@b.c" none (some true) "Science" true
    initState [] (by decide) (by decide)

/-! ## C8: identities absent from the roster -/

/-- C8: a well-formed row whose lowercased identity is not a key of the
roster mapping is rejected as not-on-roster regardless of its other fields
(`f` and `i` are arbitrary extraction results), and the loop routes it to
the voided stream with that reason appended to the row. -/
theorem c8_not_on_roster (students : SMap) (s : RunState) (row : List String)
    (rest : List (List String)) (e : String) (f : Option String) (i : Option Bool)
    (hx : extractRow row = ExtractOutcome.ok e f i) (hs : students e = none) :
    decideRow students row e f i =
      some (RowRoute.voidedLine (csvJoin (row ++ [notInListReason]))) ∧
    runLoop extractRow students (row :: rest) s =
      runLoop extractRow students rest
        { s with
          entries := s.entries + 1
          voidedCount := s.voidedCount + 1
          voidedLines := s.voidedLines ++ [csvJoin (row ++ [notInListReason])] } := by
  have hf := extract_faculty_none row e f i hx
  subst hf
  constructor
  · simp [decideRow, hs]
  · simp [runLoop, hx, decideRow, hs]

/-- Witness for C8 at a concrete row: `z@b.c` is not on the one-entry
roster, so its row is voided with the not-in-list reason. -/
theorem c8_not_on_roster_witness :
    decideRow sampleStudents offRosterRow "z@b.c" none (some true) =
      some (RowRoute.voidedLine (csvJoin (offRosterRow ++ [notInListReason]))) ∧
    runLoop extractRow sampleStudents (offRosterRow :: []) initState =
      runLoop extractRow sampleStudents []
        { initState with
          entries := initState.entries + 1
          voidedCount := initState.voidedCount + 1
          voidedLines := initState.voidedLines ++ [csvJoin (offRosterRow ++ [notInListReason])] } :=
  c8_not_on_roster sampleStudents initState offRosterRow [] "z@b.c" none (some true)
    (by decide) (by decide)

/-! ## C3: unexpected errors break the loop but the run exits 0 -/

/-- The loop distributes over list append as long as no prefix row hits the
break arm. -/
theorem runLoop_no_break_append (extract : List String → ExtractOutcome) (students : SMap) :
    ∀ (pre l : List (List String)) (s : RunState),
      (∀ r ∈ pre, extract r ≠ ExtractOutcome.unexpectedError) →
      runLoop extract students (pre ++ l) s =
        runLoop extract students l (runLoop extract students pre s) := by
  intro pre
  induction pre with
  | nil => intro l s _; rfl
  | cons row rest ih =>
    intro l s hpre
    have h1 : extract row ≠ ExtractOutcome.unexpectedError :=
      hpre row (List.mem_cons_self row rest)
    have hrest : ∀ r ∈ rest, extract r ≠ ExtractOutcome.unexpectedError :=
      fun r hr => hpre r (List.mem_cons_of_mem row hr)
    rw [List.cons_append]
    cases hx : extract row with
    | unexpectedError => exact absurd hx h1
    | indexError =>
      simp only [runLoop, hx]
      exact ih l _ hrest
    | ok e f i =>
      simp only [runLoop, hx]
      rcases hd : decideRow students row e f i with _ | route
      · exact ih l _ hrest
      · cases route with
        | voidedLine lv => exact ih l _ hrest
        | validatedLine lv => exact ih l _ hrest

/-- Counterexample to C3 as stated: with an extraction step that raises an
unexpected exception on the middle row, the loop does hit the break arm
(`aborted = true`, and the third row is never read: `entries = 2`, not 3),
yet the run still finishes normally — files are closed, the summary is
produced from the partial counters, and the process exit code is 0, not
non-zero. -/
theorem c3_counterexample :
    (validateRun crashingExtract sampleStudents [sampleRow, crashRow, offRosterRow]).2 = 0 ∧
    (validateRun crashingExtract sampleStudents [sampleRow, crashRow, offRosterRow]).1.aborted = true ∧
    (validateRun crashingExtract sampleStudents [sampleRow, crashRow, offRosterRow]).1.entries = 2 ∧
    (validateRun crashingExtract sampleStudents [sampleRow, crashRow, offRosterRow]).1.validatedCount = 1 ∧
    (validateRun crashingExtract sampleStudents [sampleRow, crashRow, offRosterRow]).1.voidedCount = 0 := by
  decide

/-- C3 as amended: an error other than a malformed row stops the
row-processing loop immediately — the failing row is counted in `entries`
but routed nowhere, and no later row is read — but the exception is
swallowed by the `except Exception: break` arm: the run then completes
normally, with the summary of the prefix and process exit code 0 (the
claimed non-zero abort does not happen). -/
theorem c3_break_swallows_error (extract : List String → ExtractOutcome)
    (students : SMap) (pre : List (List String)) (row : List String)
    (rest : List (List String))
    (hpre : ∀ r ∈ pre, extract r ≠ ExtractOutcome.unexpectedError)
    (hrow : extract row = ExtractOutcome.unexpectedError) :
    validateRun extract students (pre ++ row :: rest) =
      ({ runLoop extract students pre initState with
          entries := (runLoop extract students pre initState).entries + 1
          aborted := true }, 0) := by
  unfold validateRun
  rw [runLoop_no_break_append extract students pre (row :: rest) initState hpre]
  simp only [runLoop, hrow]

/-- Witness for the amended C3 at a concrete run: one clean row, then the
crashing row, then a row that is never reached. -/
theorem c3_break_swallows_error_witness :
    validateRun crashingExtract sampleStudents ([sampleRow] ++ crashRow :: [offRosterRow]) =
      ({ runLoop crashingExtract sampleStudents [sampleRow] initState with
          entries := (runLoop crashingExtract sampleStudents [sampleRow] initState).entries + 1
          aborted := true }, 0) :=
  c3_break_swallows_error crashingExtract sampleStudents [sampleRow] crashRow [offRosterRow]
    (by decide) (by decide)

/-! ## C4: the column map arithmetic -/

/-- Looking up a different key passes through a dict assignment. -/
theorem cset_ne (m : ColMap) (k q : String) (v : Int) (h : q ≠ k) :
    cset m k v q = m q := by
  simp [cset, h]

/-- The FRC loop leaves keys it does not assign untouched. -/
theorem frcColsLoop_not_mem : ∀ (fs : List String) (votes col : Int) (m : ColMap)
    (k : String), k ∉ fs → frcColsLoop votes fs col m k = m k := by
  intro fs
  induction fs with
  | nil => intro votes col m k _; rfl
  | cons f rest ih =>
    intro votes col m k hk
    have hkf : k ≠ f := fun h => hk (h ▸ List.mem_cons_self f rest)
    have hkr : k ∉ rest := fun h => hk (List.mem_cons_of_mem f h)
    simp only [frcColsLoop]
    rw [ih votes (col + votes) (cset m f col) k hkr]
    simp [cset, hkf]

/-- On duplicate-free contest names, the FRC loop assigns the i-th contest
the running column `col + i * votes`. -/
theorem frcColsLoop_get : ∀ (fs : List String) (votes col : Int) (m : ColMap),
    fs.Nodup → ∀ (i : Nat) (h : i < fs.length),
      frcColsLoop votes fs col m (fs.get ⟨i, h⟩) = some (col + (i : Int) * votes) := by
  intro fs
  induction fs with
  | nil =>
    intro votes col m _ i h
    exact absurd h (by simp)
  | cons f rest ih =>
    intro votes col m hnd i h
    cases i with
    | zero =>
      simp only [frcColsLoop, List.get]
      rw [frcColsLoop_not_mem rest votes (col + votes) (cset m f col) f
        (List.nodup_cons.mp hnd).1]
      simp [cset]
    | succ j =>
      simp only [frcColsLoop, List.get]
      rw [ih votes (col + votes) (cset m f col) (List.nodup_cons.mp hnd).2 j
        (Nat.lt_of_succ_lt_succ h)]
      congr 1
      push_cast
      ring

/-- The exec loop leaves keys it does not assign untouched. -/
theorem execColsLoop_not_mem : ∀ (roles : List String) (col : Int) (m : ColMap)
    (k : String), k ∉ roles → execColsLoop roles col m k = m k := by
  intro roles
  induction roles with
  | nil => intro col m k _; rfl
  | cons r rest ih =>
    intro col m k hk
    have hkr : k ≠ r := fun h => hk (h ▸ List.mem_cons_self r rest)
    have hkt : k ∉ rest := fun h => hk (List.mem_cons_of_mem r h)
    simp only [execColsLoop]
    rw [ih (col + 1) (cset m r col) k hkt]
    simp [cset, hkr]

/-- On duplicate-free role names, the exec loop assigns the i-th role the
running column `col + i`. -/
theorem execColsLoop_get : ∀ (roles : List String) (col : Int) (m : ColMap),
    roles.Nodup → ∀ (i : Nat) (h : i < roles.length),
      execColsLoop roles col m (roles.get ⟨i, h⟩) = some (col + (i : Int)) := by
  intro roles
  induction roles with
  | nil =>
    intro col m _ i h
    exact absurd h (by simp)
  | cons r rest ih =>
    intro col m hnd i h
    cases i with
    | zero =>
      simp only [execColsLoop, List.get]
      rw [execColsLoop_not_mem rest (col + 1) (cset m r col) r (List.nodup_cons.mp hnd).1]
      simp [cset]
    | succ j =>
      simp only [execColsLoop, List.get]
      rw [ih (col + 1) (cset m r col) (List.nodup_cons.mp hnd).2 j (Nat.lt_of_succ_lt_succ h)]
      congr 1
      push_cast
      ring

/-- C4: for every configuration whose contest names are duplicate-free and
do not collide with each other or with the three fixed keys, the Column Map
Builder assigns the i-th regional (FRC) contest the absolute 0-based column
`(frc_offset - 1) + i * frc_votes`, the i-th at-large (exec) contest
`(exec_offset - 1) + i`, and stores every configured 1-based position
(user, faculty, international, and the offsets through the formulas above)
as its value minus one. -/
theorem c4_column_map (c : Config)
    (h1 : c.frc_elections.Nodup) (h2 : c.exec_elections.Nodup)
    (h3 : ∀ x ∈ c.frc_elections, x ∉ c.exec_elections ∧ x ≠ "International")
    (h4 : "User" ∉ c.frc_elections ∧ "User" ∉ c.exec_elections)
    (h5 : "Faculty" ∉ c.frc_elections ∧ "Faculty" ∉ c.exec_elections)
    (h6 : "International" ∉ c.exec_elections) :
    (∀ (i : Nat) (h : i < c.frc_elections.length),
        build_election_columns c (c.frc_elections.get ⟨i, h⟩) =
          some ((c.frc_offset - 1) + (i : Int) * c.frc_votes)) ∧
    (∀ (i : Nat) (h : i < c.exec_elections.length),
        build_election_columns c (c.exec_elections.get ⟨i, h⟩) =
          some ((c.exec_offset - 1) + (i : Int))) ∧
    build_election_columns c "User" = some (c.user_column - 1) ∧
    build_election_columns c "Faculty" = some (c.faculty_column - 1) ∧
    build_election_columns c "International" = some (c.international_offset - 1) := by
  unfold build_election_columns
  refine ⟨?_, ?_, ?_, ?_, ?_⟩
  · intro i h
    have hmem : c.frc_elections.get ⟨i, h⟩ ∈ c.frc_elections := List.get_mem _ _ _
    obtain ⟨hne, hni⟩ := h3 _ hmem
    rw [execColsLoop_not_mem _ _ _ _ hne, cset_ne _ _ _ _ hni]
    exact frcColsLoop_get c.frc_elections c.frc_votes (c.frc_offset - 1) _ h1 i h
  · intro i h
    exact execColsLoop_get c.exec_elections (c.exec_offset - 1) _ h2 i h
  · rw [execColsLoop_not_mem _ _ _ _ h4.2, cset_ne _ _ _ _ (by decide),
      frcColsLoop_not_mem _ _ _ _ _ h4.1, cset_ne _ _ _ _ (by decide)]
    simp [cset]
  · rw [execColsLoop_not_mem _ _ _ _ h5.2, cset_ne _ _ _ _ (by decide)]
    rw [frcColsLoop_not_mem _ _ _ _ _ h5.1]
    simp [cset]
  · rw [execColsLoop_not_mem _ _ _ _ h6]
    simp [cset]

/-- Witness for C4 at the default configuration: Humanities is FRC contest
index 1 at 1-based offset 4 with 2 slots per contest, so column
(4-1) + 1*2 = 5; President is exec contest index 4 at offset 15, so column
(15-1) + 4 = 18; the 1-based user column 2 is stored as 1. -/
theorem c4_column_map_witness :
    build_election_columns DEFAULT_CONFIG "Humanities" = some 5 ∧
    build_election_columns DEFAULT_CONFIG "President" = some 18 ∧
    build_election_columns DEFAULT_CONFIG "User" = some 1 := by
  have h := c4_column_map DEFAULT_CONFIG (by decide) (by decide) (by decide)
    (by decide) (by decide) (by decide)
  exact ⟨h.1 1 (by decide), h.2.1 4 (by decide), h.2.2.1⟩

/-! ## Handle-openness invariants of the compilation row loop -/

/-- Writing a record never opens or closes any handle. -/
theorem writeVote_openAt (files : Files) (election user vote : String)
    (files2 : Files) (h : writeVote files election user vote = Except.ok files2)
    (k : String) : openAt files2 k = openAt files k := by
  unfold writeVote at h
  cases hf : files election with
  | none =>
    rw [hf] at h
    simp at h
  | some hd =>
    rw [hf] at h
    dsimp only at h
    by_cases ho : hd.isOpen
    · rw [if_pos ho] at h
      injection h with h2
      subst h2
      unfold openAt
      by_cases hk : k = election
      · subst hk
        simp [hf]
      · simp [hk]
    · rw [if_neg ho] at h
      simp at h

/-- A vote-slot pass never opens or closes any handle, whether it finishes
or stops on an exception. -/
theorem votePass_openAt : ∀ (idxs : List Int) (election user : String) (col : Int)
    (row : List String) (files : Files) (k : String),
    openAt (votePass election user col row files idxs).1 k = openAt files k := by
  intro idxs
  induction idxs with
  | nil => intro el u col row files k; rfl
  | cons i rest ih =>
    intro el u col row files k
    unfold votePass
    cases hg : pyGet row (col + i) with
    | none => rfl
    | some vote =>
      dsimp only
      by_cases hv : vote = ""
      · rw [if_pos hv]
        exact ih el u col row files k
      · rw [if_neg hv]
        cases hw : writeVote files el u vote with
        | ok files3 =>
          exact (ih el u col row files3 k).trans (writeVote_openAt files el u vote files3 hw k)
        | error e => rfl

/-- The FRC block never opens or closes any handle. -/
theorem frcPass_openAt (c : Config) (cols : ColMap) (files : Files)
    (faculty user : String) (row : List String) (k : String) :
    openAt (frcPass c cols files faculty user row).1 k = openAt files k := by
  unfold frcPass
  by_cases hm : faculty ∈ c.frc_elections
  · rw [if_pos hm]
    cases cols faculty with
    | none => rfl
    | some col => exact votePass_openAt _ _ _ _ _ _ _
  · rw [if_neg hm]

/-- The International block never opens or closes any handle. -/
theorem intlPass_openAt (c : Config) (cols : ColMap) (files : Files)
    (user : String) (row : List String) (k : String) :
    openAt (intlPass c cols files user row).1 k = openAt files k := by
  unfold intlPass
  cases cols "International" with
  | none => rfl
  | some iIdx =>
    dsimp only
    cases pyGet row (iIdx - 1) with
    | none => rfl
    | some flag =>
      dsimp only
      by_cases hy : flag = "Yes"
      · rw [if_pos hy]
        exact votePass_openAt _ _ _ _ _ _ _
      · rw [if_neg hy]

/-- The inner exec loop never opens or closes any handle. -/
theorem execInner_openAt : ∀ (roles : List String) (cols : ColMap) (user : String)
    (row : List String) (i : Int) (files : Files) (k : String),
    openAt (execInner cols user row i files roles).1 k = openAt files k := by
  intro roles
  induction roles with
  | nil => intro cols user row i files k; rfl
  | cons role rest ih =>
    intro cols user row i files k
    unfold execInner
    cases cols role with
    | none => rfl
    | some col =>
      dsimp only
      cases pyGet row (col + i) with
      | none => rfl
      | some vote =>
        dsimp only
        by_cases hv : vote = ""
        · rw [if_pos hv]
          exact ih cols user row i files k
        · rw [if_neg hv]
          cases hw : writeVote files role user vote with
          | ok files3 =>
            exact (ih cols user row i files3 k).trans
              (writeVote_openAt files role user vote files3 hw k)
          | error e => rfl

/-- The outer exec loop never opens or closes any handle. -/
theorem execOuter_openAt : ∀ (idxs : List Int) (cols : ColMap) (user : String)
    (row : List String) (roles : List String) (files : Files) (k : String),
    openAt (execOuter cols user row roles files idxs).1 k = openAt files k := by
  intro idxs
  induction idxs with
  | nil => intro cols user row roles files k; rfl
  | cons i rest ih =>
    intro cols user row roles files k
    unfold execOuter
    rcases hp : execInner cols user row i files roles with ⟨files2, err⟩
    have o1 : openAt files2 k = openAt files k := by
      have h := execInner_openAt roles cols user row i files k
      rw [hp] at h
      exact h
    cases err with
    | none =>
      dsimp only
      exact (ih cols user row roles files2 k).trans o1
    | some e =>
      dsimp only
      exact o1

/-- One row of the compilation loop never opens or closes any handle. -/
theorem compileRow_openAt (c : Config) (cols : ColMap) (files : Files)
    (row : List String) (k : String) :
    openAt (compileRow c cols files row).1 k = openAt files k := by
  unfold compileRow
  cases cols "User" with
  | none => rfl
  | some uIdx =>
    dsimp only
    cases pyGet row uIdx with
    | none => rfl
    | some user =>
      dsimp only
      cases cols "Faculty" with
      | none => rfl
      | some fIdx =>
        dsimp only
        cases pyGet row fIdx with
        | none => rfl
        | some faculty =>
          dsimp only
          rcases hp1 : frcPass c cols files faculty user row with ⟨files1, err1⟩
          have o1 : openAt files1 k = openAt files k := by
            have h := frcPass_openAt c cols files faculty user row k
            rw [hp1] at h
            exact h
          cases err1 with
          | some e =>
            dsimp only
            exact o1
          | none =>
            dsimp only
            rcases hp2 : intlPass c cols files1 user row with ⟨files2, err2⟩
            have o2 : openAt files2 k = openAt files1 k := by
              have h := intlPass_openAt c cols files1 user row k
              rw [hp2] at h
              exact h
            cases err2 with
            | some e =>
              dsimp only
              exact o2.trans o1
            | none =>
              dsimp only
              exact (execOuter_openAt (pyRange c.exec_votes) cols user row
                c.exec_elections files2 k).trans (o2.trans o1)

/-- The whole compilation row loop never opens or closes any handle. -/
theorem compileRowsLoop_openAt : ∀ (rows : List (List String)) (c : Config)
    (cols : ColMap) (files : Files) (k : String),
    openAt (compileRowsLoop c cols files rows).1 k = openAt files k := by
  intro rows
  induction rows with
  | nil => intro c cols files k; rfl
  | cons row rest ih =>
    intro c cols files k
    unfold compileRowsLoop
    rcases hr : compileRow c cols files row with ⟨files2, err⟩
    have o1 : openAt files2 k = openAt files k := by
      have h := compileRow_openAt c cols files row k
      rw [hr] at h
      exact h
    cases err with
    | none =>
      dsimp only
      exact (ih c cols files2 k).trans o1
    | some e =>
      dsimp only
      exact o1

/-! ## Creation and closing of the per-contest handles -/

/-- The inner creation loop leaves keys outside the group untouched. -/
theorem createFilesLoop_not_mem : ∀ (names : List String) (m : Files) (k : String),
    k ∉ names → createFilesLoop m names k = m k := by
  intro names
  induction names with
  | nil => intro m k _; rfl
  | cons e rest ih =>
    intro m k hk
    have hke : k ≠ e := fun h => hk (h ▸ List.mem_cons_self e rest)
    have hkr : k ∉ rest := fun h => hk (List.mem_cons_of_mem e h)
    simp only [createFilesLoop]
    rw [ih (fset m e { isOpen := true, lines := [] }) k hkr]
    simp [fset, hke]

/-- Every election of the group receives a fresh open empty handle. -/
theorem createFilesLoop_mem : ∀ (names : List String) (m : Files) (k : String),
    k ∈ names → createFilesLoop m names k = some { isOpen := true, lines := [] } := by
  intro names
  induction names with
  | nil =>
    intro m k hk
    exact absurd hk (List.not_mem_nil k)
  | cons e rest ih =>
    intro m k hk
    by_cases hkr : k ∈ rest
    · exact ih (fset m e { isOpen := true, lines := [] }) k hkr
    · have hke : k = e := by
        rcases List.mem_cons.mp hk with h | h
        · exact h
        · exact absurd h hkr
      simp only [createFilesLoop]
      rw [createFilesLoop_not_mem rest _ k hkr]
      simp [fset, hke]

/-- Every key receives either a fresh handle or the base map's value. -/
theorem createFilesLoop_val : ∀ (names : List String) (m : Files) (k : String),
    createFilesLoop m names k = m k ∨
      createFilesLoop m names k = some { isOpen := true, lines := [] } := by
  intro names m k
  by_cases hk : k ∈ names
  · exact Or.inr (createFilesLoop_mem names m k hk)
  · exact Or.inl (createFilesLoop_not_mem names m k hk)

/-- A name in any of the three election groups gets a fresh open handle. -/
theorem create_mem3 (g1 g2 g3 : List String) (k : String)
    (hk : k ∈ g1 ++ g2 ++ g3) :
    create_election_files [g1, g2, g3] k = some { isOpen := true, lines := [] } := by
  simp only [create_election_files, createFilesOuter]
  by_cases h3 : k ∈ g3
  · exact createFilesLoop_mem g3 _ k h3
  · rw [createFilesLoop_not_mem g3 _ k h3]
    by_cases h2 : k ∈ g2
    · exact createFilesLoop_mem g2 _ k h2
    · rw [createFilesLoop_not_mem g2 _ k h2]
      have h1 : k ∈ g1 := by
        rcases List.mem_append.mp hk with h12 | hx
        · rcases List.mem_append.mp h12 with hA | hB
          · exact hA
          · exact absurd hB h2
        · exact absurd hx h3
      exact createFilesLoop_mem g1 _ k h1

/-! ## The no-empty-vote invariant -/

/-- A write of a non-empty vote preserves the no-empty-vote invariant. -/
theorem writeVote_good (files : Files) (el u v : String) (files2 : Files)
    (hg : goodFiles files) (hv : v ≠ "")
    (h : writeVote files el u v = Except.ok files2) : goodFiles files2 := by
  unfold writeVote at h
  cases hf : files el with
  | none =>
    rw [hf] at h
    simp at h
  | some hd =>
    rw [hf] at h
    dsimp only at h
    by_cases ho : hd.isOpen
    · rw [if_pos ho] at h
      injection h with h2
      subst h2
      intro name hd2 pr hn hpr
      have hn2 : (if name = el then some { hd with lines := hd.lines ++ [(u, v)] }
          else files name) = some hd2 := hn
      by_cases hk : name = el
      · rw [if_pos hk] at hn2
        injection hn2 with h3
        subst h3
        rcases List.mem_append.mp hpr with hin | hin
        · exact hg el hd pr hf hin
        · have : pr = (u, v) := by simpa using hin
          rw [this]
          exact hv
      · rw [if_neg hk] at hn2
        exact hg name hd2 pr hn2 hpr
    · rw [if_neg ho] at h
      simp at h

/-- A vote-slot pass preserves the no-empty-vote invariant: empty slots are
skipped with a warning, non-empty slots are written. -/
theorem votePass_good : ∀ (idxs : List Int) (election user : String) (col : Int)
    (row : List String) (files : Files), goodFiles files →
    goodFiles (votePass election user col row files idxs).1 := by
  intro idxs
  induction idxs with
  | nil => intro el u col row files hg; exact hg
  | cons i rest ih =>
    intro el u col row files hg
    unfold votePass
    cases hgx : pyGet row (col + i) with
    | none => exact hg
    | some vote =>
      dsimp only
      by_cases hv : vote = ""
      · rw [if_pos hv]
        exact ih el u col row files hg
      · rw [if_neg hv]
        cases hw : writeVote files el u vote with
        | ok files3 => exact ih el u col row files3 (writeVote_good files el u vote files3 hg hv hw)
        | error e => exact hg

/-- The FRC block preserves the no-empty-vote invariant. -/
theorem frcPass_good (c : Config) (cols : ColMap) (files : Files)
    (faculty user : String) (row : List String) (hg : goodFiles files) :
    goodFiles (frcPass c cols files faculty user row).1 := by
  unfold frcPass
  by_cases hm : faculty ∈ c.frc_elections
  · rw [if_pos hm]
    cases cols faculty with
    | none => exact hg
    | some col => exact votePass_good _ _ _ _ _ _ hg
  · rw [if_neg hm]
    exact hg

/-- The International block preserves the no-empty-vote invariant. -/
theorem intlPass_good (c : Config) (cols : ColMap) (files : Files)
    (user : String) (row : List String) (hg : goodFiles files) :
    goodFiles (intlPass c cols files user row).1 := by
  unfold intlPass
  cases cols "International" with
  | none => exact hg
  | some iIdx =>
    dsimp only
    cases pyGet row (iIdx - 1) with
    | none => exact hg
    | some flag =>
      dsimp only
      by_cases hy : flag = "Yes"
      · rw [if_pos hy]
        exact votePass_good _ _ _ _ _ _ hg
      · rw [if_neg hy]
        exact hg

/-- The inner exec loop preserves the no-empty-vote invariant. -/
theorem execInner_good : ∀ (roles : List String) (cols : ColMap) (user : String)
    (row : List String) (i : Int) (files : Files), goodFiles files →
    goodFiles (execInner cols user row i files roles).1 := by
  intro roles
  induction roles with
  | nil => intro cols user row i files hg; exact hg
  | cons role rest ih =>
    intro cols user row i files hg
    unfold execInner
    cases cols role with
    | none => exact hg
    | some col =>
      dsimp only
      cases pyGet row (col + i) with
      | none => exact hg
      | some vote =>
        dsimp only
        by_cases hv : vote = ""
        · rw [if_pos hv]
          exact ih cols user row i files hg
        · rw [if_neg hv]
          cases hw : writeVote files role user vote with
          | ok files3 =>
            exact ih cols user row i files3 (writeVote_good files role user vote files3 hg hv hw)
          | error e => exact hg

/-- The outer exec loop preserves the no-empty-vote invariant. -/
theorem execOuter_good : ∀ (idxs : List Int) (cols : ColMap) (user : String)
    (row : List String) (roles : List String) (files : Files), goodFiles files →
    goodFiles (execOuter cols user row roles files idxs).1 := by
  intro idxs
  induction idxs with
  | nil => intro cols user row roles files hg; exact hg
  | cons i rest ih =>
    intro cols user row roles files hg
    unfold execOuter
    rcases hp : execInner cols user row i files roles with ⟨files2, err⟩
    have hg2 : goodFiles files2 := by
      have h := execInner_good roles cols user row i files hg
      rw [hp] at h
      exact h
    cases err with
    | none =>
      dsimp only
      exact ih cols user row roles files2 hg2
    | some e =>
      dsimp only
      exact hg2

/-- One row of the compilation loop preserves the no-empty-vote invariant. -/
theorem compileRow_good (c : Config) (cols : ColMap) (files : Files)
    (row : List String) (hg : goodFiles files) :
    goodFiles (compileRow c cols files row).1 := by
  unfold compileRow
  cases cols "User" with
  | none => exact hg
  | some uIdx =>
    dsimp only
    cases pyGet row uIdx with
    | none => exact hg
    | some user =>
      dsimp only
      cases cols "Faculty" with
      | none => exact hg
      | some fIdx =>
        dsimp only
        cases pyGet row fIdx with
        | none => exact hg
        | some faculty =>
          dsimp only
          rcases hp1 : frcPass c cols files faculty user row with ⟨files1, err1⟩
          have hg1 : goodFiles files1 := by
            have h := frcPass_good c cols files faculty user row hg
            rw [hp1] at h
            exact h
          cases err1 with
          | some e =>
            dsimp only
            exact hg1
          | none =>
            dsimp only
            rcases hp2 : intlPass c cols files1 user row with ⟨files2, err2⟩
            have hg2 : goodFiles files2 := by
              have h := intlPass_good c cols files1 user row hg1
              rw [hp2] at h
              exact h
            cases err2 with
            | some e =>
              dsimp only
              exact hg2
            | none =>
              dsimp only
              exact execOuter_good (pyRange c.exec_votes) cols user row
                c.exec_elections files2 hg2

/-- The whole compilation row loop preserves the no-empty-vote invariant. -/
theorem compileRowsLoop_good : ∀ (rows : List (List String)) (c : Config)
    (cols : ColMap) (files : Files), goodFiles files →
    goodFiles (compileRowsLoop c cols files rows).1 := by
  intro rows
  induction rows with
  | nil => intro c cols files hg; exact hg
  | cons row rest ih =>
    intro c cols files hg
    unfold compileRowsLoop
    rcases hr : compileRow c cols files row with ⟨files2, err⟩
    have hg2 : goodFiles files2 := by
      have h := compileRow_good c cols files row hg
      rw [hr] at h
      exact h
    cases err with
    | none =>
      dsimp only
      exact ih c cols files2 hg2
    | some e =>
      dsimp only
      exact hg2

/-- Freshly created handle dictionaries satisfy the no-empty-vote
invariant: every handle is empty. -/
theorem createFilesLoop_good (names : List String) (m : Files)
    (hg : goodFiles m) : goodFiles (createFilesLoop m names) := by
  intro name hd pr hn hpr
  rcases createFilesLoop_val names m name with hv | hv
  · rw [hv] at hn
    exact hg name hd pr hn hpr
  · rw [hv] at hn
    injection hn with h2
    subst h2
    exact absurd hpr (List.not_mem_nil pr)

/-- The outer creation loop preserves the invariant. -/
theorem createFilesOuter_good : ∀ (groups : List (List String)) (m : Files),
    goodFiles m → goodFiles (createFilesOuter m groups) := by
  intro groups
  induction groups with
  | nil => intro m hg; exact hg
  | cons grp rest ih =>
    intro m hg
    exact ih (createFilesLoop m grp) (createFilesLoop_good grp m hg)

/-- Fresh election-file dictionaries satisfy the invariant. -/
theorem create_election_files_good (elections : List (List String)) :
    goodFiles (create_election_files elections) :=
  createFilesOuter_good elections (fun _ => none)
    (fun name hd pr hn _ => absurd hn (by simp))

/-- Closing handles does not change their contents. -/
theorem close_election_files_good (files : Files) (hg : goodFiles files) :
    goodFiles (close_election_files files) := by
  intro name hd pr hn hpr
  unfold close_election_files at hn
  cases hf : files name with
  | none => rw [hf] at hn; simp at hn
  | some hd0 =>
    rw [hf] at hn
    injection hn with h2
    subst h2
    exact hg name hd0 pr hf hpr

/-- A full compilation run satisfies the no-empty-vote invariant on every
exit path. -/
theorem compile_validated_results_good (c : Config) (lines : List String) :
    goodFiles (compile_validated_results c lines).1 := by
  unfold compile_validated_results
  by_cases hl : lines.length < VALIDATED_STUDENTS_NUM_HEADERS
  · rw [if_pos hl]
    exact create_election_files_good _
  · rw [if_neg hl]
    rcases hr : compileRowsLoop c (build_election_columns c)
        (create_election_files [c.frc_elections, c.exec_elections, ["International"]])
        (compileDataRows lines) with ⟨files2, err⟩
    have hg2 : goodFiles files2 := by
      have h := compileRowsLoop_good (compileDataRows lines) c (build_election_columns c)
        (create_election_files [c.frc_elections, c.exec_elections, ["International"]])
        (create_election_files_good _)
      rw [hr] at h
      exact h
    cases err with
    | none =>
      dsimp only
      exact close_election_files_good files2 hg2
    | some e =>
      dsimp only
      exact hg2

/-- A completed vote-slot pass appends to the contest's handle exactly the
records of its non-empty slot values, in slot order. -/
theorem votePass_ok_lines : ∀ (idxs : List Int) (election user : String)
    (col : Int) (row : List String) (files files2 : Files) (hd : Handle),
    files election = some hd →
    votePass election user col row files idxs = (files2, none) →
    files2 election = some { hd with lines := hd.lines ++ slotRecords user col row idxs } := by
  intro idxs
  induction idxs with
  | nil =>
    intro el u col row files files2 hd hf h
    unfold votePass at h
    injection h with h1 h2
    subst h1
    simp [hf, slotRecords]
  | cons i rest ih =>
    intro el u col row files files2 hd hf h
    unfold votePass at h
    cases hg : pyGet row (col + i) with
    | none =>
      rw [hg] at h
      injection h with h1 h2
      simp at h2
    | some vote =>
      rw [hg] at h
      dsimp only at h
      by_cases hv : vote = ""
      · rw [if_pos hv] at h
        have hres := ih el u col row files files2 hd hf h
        rw [hres]
        simp [slotRecords, List.filterMap_cons, hg, hv]
      · rw [if_neg hv] at h
        cases hw : writeVote files el u vote with
        | error e =>
          rw [hw] at h
          injection h with h1 h2
          simp at h2
        | ok files3 =>
          rw [hw] at h
          have hf3 : files3 el = some { hd with lines := hd.lines ++ [(u, vote)] } := by
            unfold writeVote at hw
            rw [hf] at hw
            dsimp only at hw
            by_cases ho : hd.isOpen
            · rw [if_pos ho] at hw
              injection hw with hw2
              rw [← hw2]
              simp
            · rw [if_neg ho] at hw
              simp at hw
          have hres := ih el u col row files3 files2 _ hf3 h
          rw [hres]
          simp [slotRecords, List.filterMap_cons, hg, hv]

/-! ## C6: handle release on the two exit paths -/

/-- Counterexample to C6 as stated: on a validated file whose single data
row is too short, reading the user column raises an `IndexError`; the run
stops with that error, `close_election_files` is never reached, and the
per-contest handles are still open when the exception propagates — they are
not closed on this exit path. -/
theorem c6_counterexample :
    (compile_validated_results DEFAULT_CONFIG badLines).2 = some "IndexError" ∧
    (compile_validated_results DEFAULT_CONFIG badLines).1 "President" =
      some { isOpen := true, lines := [] } ∧
    (compile_validated_results DEFAULT_CONFIG badLines).1 "Humanities" =
      some { isOpen := true, lines := [] } := by
  decide

/-- C6 as amended: every per-contest handle is opened exactly once during
setup with a fresh empty handle; on the normal-completion path
`close_election_files` closes every handle, but on the error path (an
exception while processing a row, or while skipping headers) the close call
is never reached and every per-contest handle remains open: the handle is
open at exit if and only if the run ended with an error. -/
theorem c6_handle_release (c : Config) (lines : List String) (name : String)
    (hmem : name ∈ c.frc_elections ++ c.exec_elections ++ ["International"]) :
    ∃ hd, (compile_validated_results c lines).1 name = some hd ∧
      hd.isOpen = (compile_validated_results c lines).2.isSome := by
  have hcr : create_election_files [c.frc_elections, c.exec_elections, ["International"]] name =
      some { isOpen := true, lines := [] } :=
    create_mem3 c.frc_elections c.exec_elections ["International"] name hmem
  unfold compile_validated_results
  by_cases hl : lines.length < VALIDATED_STUDENTS_NUM_HEADERS
  · rw [if_pos hl]
    exact ⟨{ isOpen := true, lines := [] }, hcr, rfl⟩
  · rw [if_neg hl]
    rcases hr : compileRowsLoop c (build_election_columns c)
        (create_election_files [c.frc_elections, c.exec_elections, ["International"]])
        (compileDataRows lines) with ⟨files2, err⟩
    have ho : openAt files2 name = some true := by
      have h := compileRowsLoop_openAt (compileDataRows lines) c (build_election_columns c)
        (create_election_files [c.frc_elections, c.exec_elections, ["International"]]) name
      rw [hr] at h
      rw [h]
      unfold openAt
      rw [hcr]
      rfl
    obtain ⟨hd2, hfd2, hopen⟩ : ∃ hd2, files2 name = some hd2 ∧ hd2.isOpen = true := by
      unfold openAt at ho
      cases hfd : files2 name with
      | none => rw [hfd] at ho; simp at ho
      | some hd2 =>
        rw [hfd] at ho
        exact ⟨hd2, rfl, by simpa using ho⟩
    cases err with
    | none =>
      dsimp only
      refine ⟨{ hd2 with isOpen := false }, ?_, rfl⟩
      unfold close_election_files
      rw [hfd2]
      rfl
    | some e =>
      dsimp only
      exact ⟨hd2, hfd2, by rw [hopen]; rfl⟩

/-- Witness for the amended C6 at a concrete erroring run: the President
handle exists and its openness equals the presence of an error. -/
theorem c6_handle_release_witness :
    ∃ hd, (compile_validated_results DEFAULT_CONFIG badLines).1 "President" = some hd ∧
      hd.isOpen = (compile_validated_results DEFAULT_CONFIG badLines).2.isSome :=
  c6_handle_release DEFAULT_CONFIG badLines "President" (by decide)

/-! ## C7: empty vote slots are never written -/

/-- C7: in every extraction pass of every compilation run, an empty vote
slot is never written as an `(identity, vote)` record to any contest handle
(first conjunct: every record in every handle, on every exit path, has a
non-empty vote), while a completed slot pass writes exactly the records of
its non-empty slot values (second conjunct, shared verbatim by the FRC and
International blocks and, slot by slot, by the exec block's inner body). -/
theorem c7_empty_votes :
    (∀ (c : Config) (lines : List String) (name : String) (hd : Handle)
        (pr : String × String),
        (compile_validated_results c lines).1 name = some hd →
        pr ∈ hd.lines → pr.2 ≠ "") ∧
    (∀ (election user : String) (col : Int) (row : List String)
        (files files2 : Files) (hd : Handle) (idxs : List Int),
        files election = some hd →
        votePass election user col row files idxs = (files2, none) →
        files2 election = some { hd with lines := hd.lines ++ slotRecords user col row idxs }) := by
  constructor
  · intro c lines name hd pr hn hpr
    exact compile_validated_results_good c lines name hd pr hn hpr
  · intro el u col row files files2 hd idxs hf h
    exact votePass_ok_lines idxs el u col row files files2 hd hf h

/-- Witness for C7 at a concrete run: compiling a correct 19-column row
under the default configuration writes the record `("alice", "E5")` to the
President handle, and its vote value is non-empty. -/
theorem c7_empty_votes_witness : (("alice", "E5") : String × String).2 ≠ "" :=
  c7_empty_votes.1 DEFAULT_CONFIG goodLines "President"
    { isOpen := false, lines := [("alice", "E5")] } ("alice", "E5")
    (by decide) (by decide)
